import Mathlib

/-!
# Verification of the SabCare call-scheduling core

Shallow embedding of the schedule-generation algorithm
(`generate_ivr_schedule` in `backend/main.py`), the call executor tick
(`check_and_execute_calls` in `backend/main.py`), the cancellation endpoint
(`cancel_call` in `backend/main.py`), and the storage operations
(`backend/database.py`: `create_patient`, `update_patient`,
`update_call_status`, `create_call_logs_batch`), together with theorems
settling the specification's claims about them.

Timestamps are modelled as natural numbers of microseconds since an epoch
that falls on a Monday at 00:00:00, matching Python's `datetime` resolution
and its `weekday()` convention (Monday = 0).  SQLite tables are modelled as
Lean lists of rows; JSON-encoded columns are carried as opaque strings.
-/

namespace SabCare

/-! ## Timestamp model -/

def usPerSec : Nat := 1000000
def usPerMin : Nat := 60 * usPerSec
def usPerHour : Nat := 60 * usPerMin
def usPerDay : Nat := 24 * usPerHour

/-- `t + timedelta(days = k)` for a timezone-naive timestamp. -/
def addDays (t : Nat) (k : Nat) : Nat := t + k * usPerDay

/-- Python's `weekday()`: Monday = 0 … Sunday = 6 (epoch day 0 is a Monday). -/
def weekdayOf (t : Nat) : Int := ((t / usPerDay : Nat) : Int) % 7

/-- `t.replace(hour := h, minute := m, second := 0, microsecond := 0)`,
assuming `h`/`m` in range (used where the source passes literals `9, 0`). -/
def replaceHM (t : Nat) (h m : Int) : Nat :=
  (t / usPerDay) * usPerDay + h.toNat * usPerHour + m.toNat * usPerMin

/-- `t.replace(hour := h, minute := m, second := 0, microsecond := 0)` with
Python's range check: `datetime.replace` raises `ValueError` when the hour is
outside `0..23` or the minute outside `0..59`. -/
def replaceHMChecked (t : Nat) (h m : Int) : Except String Nat :=
  if 0 ≤ h ∧ h < 24 ∧ 0 ≤ m ∧ m < 60 then .ok (replaceHM t h m)
  else .error "ValueError: hour/minute out of range"

/-! ## Python `int()` and the medication time-of-day parser -/

/-- Digit string with Python's underscore rule (single underscores between
digits), accumulating a value; `none` on any violation. -/
def pyDigitsCore (acc : Nat) : List Char → Option Nat
  | [] => some acc
  | c :: rest =>
    if c.isDigit then pyDigitsCore (acc * 10 + (c.toNat - 48)) rest
    else if c = '_' then
      match rest with
      | r :: _ => if r.isDigit then pyDigitsCore acc rest else none
      | [] => none
    else none

/-- Nonempty digit run (must start with a digit). -/
def pyDigits : List Char → Option Nat
  | [] => none
  | c :: rest => if c.isDigit then pyDigitsCore 0 (c :: rest) else none

/-- Python's `str.strip()` (strings are carried as their character lists). -/
def pyStrip (s : List Char) : List Char :=
  ((s.dropWhile Char.isWhitespace).reverse.dropWhile Char.isWhitespace).reverse

/-- Python's `str.split(sep)` for a one-character separator: split at every
occurrence, keeping empty pieces (`"".split(':') == ['']`). -/
def splitOnCharAux (c : Char) : List Char → List Char → List (List Char)
  | [], acc => [acc.reverse]
  | x :: xs, acc =>
    if x = c then acc.reverse :: splitOnCharAux c xs []
    else splitOnCharAux c xs (x :: acc)

def splitOnChar (c : Char) (s : List Char) : List (List Char) :=
  splitOnCharAux c s []

/-- Python's `int(s)` for a decimal string: optional surrounding whitespace,
optional sign, digits with single interior underscores; `none` when Python
would raise `ValueError`. -/
def pyIntChars (cs : List Char) : Option Int :=
  match pyStrip cs with
  | '-' :: rest => (pyDigits rest).map (fun n => -(n : Int))
  | '+' :: rest => (pyDigits rest).map (fun n => (n : Int))
  | cs' => (pyDigits cs').map (fun n => (n : Int))

def pyInt (s : String) : Option Int := pyIntChars s.data

/-- The time parsing of `generate_ivr_schedule` (main.py lines 664-671):
```
try:
    if isinstance(med_time, str) and ':' in med_time:
        hour, minute = map(int, med_time.split(':'))
    else:
        hour, minute = 9, 0
except:
    hour, minute = 9, 0
```
No `':'` gives one split part; two or more `':'` give three or more parts and
the tuple unpacking raises (caught); so values are read exactly from the
two-part case with both parts parsing as ints. -/
def parseTimeHM (s : String) : Int × Int :=
  match splitOnChar ':' s.data with
  | [a, b] =>
    match pyIntChars a, pyIntChars b with
    | some h, some m => (h, m)
    | _, _ => (9, 0)
  | _ => (9, 0)

/-! ## Data model (pydantic models of `backend/main.py`) -/

structure Medication where
  name : String
  dosage : String
  frequency : List String
  time : String
deriving Repr, DecidableEq

structure PatientCreate where
  name : String
  phone : String
  gestational_age_weeks : Int
  risk_factors : List String
  medications : List Medication
  risk_category : String
deriving Repr, DecidableEq

/-- One element of the `call_logs_to_create` batch (and, with the same
content, of the returned `schedule` list). -/
structure CallEntry where
  patient_id : Int
  call_type : String
  status : String
  message_text : String
  scheduled_time : Nat
deriving Repr, DecidableEq

/-! ## Message texts (`generate_simple_message`, main.py lines 513-564) -/

def generate_simple_message (topic : String) (patient_name : String)
    (gestational_age_weeks : Int) (risk_factors : List String)
    (risk_category : String) (medications : List String) : String :=
  let message :=
    if topic = "weekly_checkin" then
      let m := "Hello " ++ patient_name ++ ", this is your week " ++
        toString gestational_age_weeks ++ " pregnancy check-in from SabCare. "
      if gestational_age_weeks < 12 then
        m ++ "During your first trimester, it's important to take your prenatal vitamins and get plenty of rest."
      else if gestational_age_weeks < 28 then
        m ++ "You're in your second trimester. Continue with regular prenatal care and maintain a healthy diet."
      else
        m ++ "You're in your third trimester. Monitor for any signs of labor and stay in close contact with your healthcare provider."
    else if topic = "medication_reminder" then
      (if medications ≠ [] then
        "Hello " ++ patient_name ++ ", this is your reminder to take your medications: " ++
          String.intercalate ", " medications ++ ". "
      else
        "Hello " ++ patient_name ++ ", this is your medication reminder. ") ++
      "Please take your medications as prescribed by your healthcare provider."
    else if topic = "high_risk_monitoring" then
      "Hello " ++ patient_name ++ ", this is your high-risk pregnancy monitoring call from SabCare. " ++
      (if risk_factors ≠ [] then
        "Given your risk factors including " ++ String.intercalate ", " risk_factors ++ ", "
      else "") ++
      "it's important to monitor your symptoms closely and contact your healthcare provider immediately if you experience any concerns."
    else
      "Hello " ++ patient_name ++ ", this is a message from your SabCare pregnancy care team. " ++
      "Please stay in touch with your healthcare provider regarding your pregnancy care."
  if risk_category = "high" then
    message ++ " Given your high-risk status, please be extra vigilant about any changes in your condition."
  else message

/-- `convert_medications_to_strings` (main.py lines 566-593), on the typed
`Medication` branch; Python truthiness of `""` and `[]` is falsy. -/
def convert_medications_to_strings (medications : List Medication) : List String :=
  medications.map fun med =>
    let s := med.name
    let s := if med.dosage ≠ "" then s ++ " " ++ med.dosage else s
    if med.frequency ≠ [] then s ++ " (" ++ String.intercalate ", " med.frequency ++ ")" else s

/-! ## Schedule generation (`generate_ivr_schedule`, main.py lines 595-786) -/

/-- Risk-based call cadence (main.py lines 607-612). -/
def callFrequencyDays (risk_category : String) : Nat :=
  if risk_category = "high" then 3
  else if risk_category = "medium" then 5
  else 7

/-- Horizon: `min(weeks_remaining, 20)` with
`weeks_remaining = max(0, 40 - gestational_age)` (main.py lines 601, 618). -/
def horizonWeeks (gestational_age : Int) : Nat :=
  (min (max 0 (40 - gestational_age)) 20).toNat

/-- Weekly check-in entries (main.py lines 614-647): for each `week` below the
horizon, `current_time + timedelta(days = 1 + week * call_frequency_days)`
with the time of day replaced by 09:00. -/
def weeklyCheckins (now : Nat) (patient_id : Int) (p : PatientCreate)
    (W f : Nat) : List CallEntry :=
  (List.range W).map fun (week : Nat) =>
    { patient_id := patient_id
      call_type := "weekly_checkin"
      status := "scheduled"
      message_text := generate_simple_message "weekly_checkin" p.name
        (p.gestational_age_weeks + (week : Int)) p.risk_factors p.risk_category
        (convert_medications_to_strings p.medications)
      scheduled_time := replaceHM (addDays now (1 + week * f)) 9 0 }

/-- `day_map = {'Sun': 6, 'Mon': 0, 'Tue': 1, 'Wed': 2, 'Thu': 3, 'Fri': 4,
'Sat': 5}` (main.py line 652). -/
def dayMap : String → Option Int
  | "Sun" => some 6
  | "Mon" => some 0
  | "Tue" => some 1
  | "Wed" => some 2
  | "Thu" => some 3
  | "Fri" => some 4
  | "Sat" => some 5
  | _ => none

/-- Base day offset for one weekday (main.py lines 681-700).  In the
`days_ahead == 0` branch the source calls `current_time.replace(...)`, which
can raise for an out-of-range parsed hour/minute. -/
def baseDaysAhead (now : Nat) (hour minute : Int) (day_of_week : Int) :
    Except String Nat :=
  let days_ahead : Int := day_of_week - weekdayOf now
  if days_ahead = 0 then do
    let call_time_today ← replaceHMChecked now hour minute
    if now < call_time_today then pure 0 else pure 7
  else if days_ahead < 0 then pure (7 + days_ahead).toNat
  else pure days_ahead.toNat

/-- First loop over `med_days` building `day_of_week_map`
(main.py lines 677-704): unknown day names are skipped; the base offset is
computed (and can raise) even for a repeated day name, but only the first
occurrence is stored. -/
def buildDayOffsets (now : Nat) (hour minute : Int)
    (acc : List (String × Nat)) : List String → Except String (List (String × Nat))
  | [] => .ok acc
  | day_name :: rest =>
    match dayMap day_name with
    | none => buildDayOffsets now hour minute acc rest
    | some day_of_week => do
      let base ← baseDaysAhead now hour minute day_of_week
      let acc' := if (acc.lookup day_name).isSome then acc
                  else acc ++ [(day_name, base)]
      buildDayOffsets now hour minute acc' rest

/-- One medication-reminder entry (main.py lines 722-745). -/
def medEntry (patient_id : Int) (p : PatientCreate) (med : Medication)
    (week : Nat) (call_time : Nat) : CallEntry :=
  { patient_id := patient_id
    call_type := "medication_reminder"
    status := "scheduled"
    message_text := generate_simple_message "medication_reminder" p.name
      (p.gestational_age_weeks + (week : Int)) p.risk_factors p.risk_category
      [(med.name ++ " " ++ med.dosage).trim]
    scheduled_time := call_time }

/-- Inner loop of the per-week generation (main.py lines 708-745): for each
day name, look it up in both maps, compute the call time (the `replace` can
raise), and emit the entry only when it is strictly in the future. -/
def medWeekEntries (now : Nat) (patient_id : Int) (p : PatientCreate)
    (med : Medication) (hour minute : Int) (offsets : List (String × Nat))
    (week : Nat) : List String → Except String (List CallEntry)
  | [] => .ok []
  | day_name :: rest =>
    match dayMap day_name, offsets.lookup day_name with
    | some _, some base => do
      let call_time ← replaceHMChecked (addDays now (base + week * 7)) hour minute
      let tail ← medWeekEntries now patient_id p med hour minute offsets week rest
      if now < call_time then .ok (medEntry patient_id p med week call_time :: tail)
      else .ok tail
    | _, _ => medWeekEntries now patient_id p med hour minute offsets week rest

/-- Outer week loop (main.py line 707): `for week in range(min(weeks_remaining, 20))`. -/
def medWeeksLoop (now : Nat) (patient_id : Int) (p : PatientCreate)
    (med : Medication) (hour minute : Int) (offsets : List (String × Nat)) :
    List Nat → Except String (List CallEntry)
  | [] => .ok []
  | week :: weeks => do
    let es ← medWeekEntries now patient_id p med hour minute offsets week med.frequency
    let tail ← medWeeksLoop now patient_id p med hour minute offsets weeks
    .ok (es ++ tail)

/-- All reminder entries for one medication (main.py lines 654-745):
medications with an empty weekday list are skipped (`continue`), the
time-of-day string is parsed with fallback 09:00, then offsets and per-week
entries are generated. -/
def medicationEntries (now : Nat) (patient_id : Int) (p : PatientCreate)
    (W : Nat) (med : Medication) : Except String (List CallEntry) :=
  if med.frequency = [] then .ok []
  else do
    let (hour, minute) := parseTimeHM med.time
    let offsets ← buildDayOffsets now hour minute [] med.frequency
    medWeeksLoop now patient_id p med hour minute offsets (List.range W)

/-- Loop over the medication list (main.py line 654). -/
def allMedicationEntries (now : Nat) (patient_id : Int) (p : PatientCreate)
    (W : Nat) : List Medication → Except String (List CallEntry)
  | [] => .ok []
  | med :: meds => do
    let es ← medicationEntries now patient_id p W med
    let tail ← allMedicationEntries now patient_id p W meds
    .ok (es ++ tail)

/-- High-risk monitoring entries (main.py lines 747-775): only for
`risk_category == "high"`, at `current_time + timedelta(days = week *
call_frequency_days + 1)` with no time-of-day adjustment. -/
def highRiskEntries (now : Nat) (patient_id : Int) (p : PatientCreate)
    (W f : Nat) : List CallEntry :=
  if p.risk_category = "high" then
    (List.range W).map fun (week : Nat) =>
      { patient_id := patient_id
        call_type := "high_risk_monitoring"
        status := "scheduled"
        message_text := generate_simple_message "high_risk_monitoring" p.name
          (p.gestational_age_weeks + (week : Int)) p.risk_factors p.risk_category
          (convert_medications_to_strings p.medications)
        scheduled_time := addDays now (week * f + 1) }
  else []

/-- `generate_ivr_schedule` (main.py lines 595-786), up to but not including
the batch-persistence step: the produced entry list in source order (all
weekly check-ins, then all medication reminders, then all high-risk entries).
An uncaught `ValueError` from `datetime.replace` propagates as `.error`. -/
def generate_ivr_schedule (now : Nat) (patient_id : Int) (p : PatientCreate) :
    Except String (List CallEntry) := do
  let W := horizonWeeks p.gestational_age_weeks
  let f := callFrequencyDays p.risk_category
  let meds ← allMedicationEntries now patient_id p W p.medications
  .ok (weeklyCheckins now patient_id p W f ++ meds ++
       highRiskEntries now patient_id p W f)

/-! ## Storage model (`backend/database.py`) -/

/-- A row of the `call_logs` table. -/
structure CallRow where
  id : Int
  patient_id : Int
  call_type : String
  status : String
  message_text : String
  scheduled_time : Nat
  completed_at : Option Nat
deriving Repr, DecidableEq

/-- A row of the `patients` table.  The JSON-encoded columns
(`risk_factors`, `medications`, `call_schedule`) are carried as the stored
TEXT values (nullable). -/
structure PatientRow where
  id : Int
  name : String
  phone : String
  gestational_age_weeks : Int
  risk_factors : Option String
  medications : Option String
  risk_category : String
  call_schedule : Option String
deriving Repr, DecidableEq

/-- `Database.create_call_logs_batch` (database.py lines 305-345) on a
successful transaction: rows inserted in list order with consecutive
autoincrement ids starting at `startId`; the batch carries no
`completed_at`. -/
def create_call_logs_batch (startId : Int) (entries : List CallEntry) :
    List CallRow :=
  entries.enum.map fun (i, e) =>
    { id := startId + i
      patient_id := e.patient_id
      call_type := e.call_type
      status := e.status
      message_text := e.message_text
      scheduled_time := e.scheduled_time
      completed_at := none }

/-- `Database.update_call_status` (database.py lines 395-414): sets the
status, and `completed_at` as well when one is supplied, on the rows matching
the id. -/
def update_call_status (logs : List CallRow) (call_id : Int) (status : String)
    (completed_at : Option Nat) : List CallRow :=
  logs.map fun r =>
    if r.id = call_id then
      match completed_at with
      | some t => { r with status := status, completed_at := some t }
      | none => { r with status := status }
    else r

/-! ## Call executor (`check_and_execute_calls`, main.py lines 28-80) -/

/-- Stable insertion by ascending `scheduled_time`
(the `ORDER BY cl.scheduled_time ASC` of the due-call query). -/
def insertByTime (c : CallRow) : List CallRow → List CallRow
  | [] => [c]
  | d :: ds =>
    if c.scheduled_time < d.scheduled_time then c :: d :: ds
    else d :: insertByTime c ds

def sortByTime : List CallRow → List CallRow
  | [] => []
  | c :: cs => insertByTime c (sortByTime cs)

/-- The due-call query (main.py lines 37-45): rows joined against an existing
patient, with `status = 'scheduled'` and `scheduled_time <= now`, ordered by
ascending scheduled time, `LIMIT 10`. -/
def selectDue (patients : List PatientRow) (logs : List CallRow) (now : Nat) :
    List CallRow :=
  (sortByTime (logs.filter fun r =>
    r.status = "scheduled" ∧ r.scheduled_time ≤ now ∧
      patients.any fun p => p.id = r.patient_id)).take 10

/-- The per-call loop of a tick (main.py lines 53-78), over the snapshot of
selected calls: `deliver` models `twilio_service.make_call` (a call SID on
success, `none` on failure or exception; either failure leaves the status
untouched).  Returns the final `call_logs` table and the ids delivered
successfully, in processing order. -/
def runCalls (deliver : Int → Option String) (now : Nat) :
    List CallRow → List CallRow → List CallRow × List Int
  | [], logs => (logs, [])
  | c :: rest, logs =>
    match deliver c.id with
    | some _ =>
      let logs' := update_call_status logs c.id "completed" (some now)
      let (final, ids) := runCalls deliver now rest logs'
      (final, c.id :: ids)
    | none => runCalls deliver now rest logs

/-- One executor tick (`check_and_execute_calls`): query the due calls once,
then process them in order. -/
def check_and_execute_calls (deliver : Int → Option String) (now : Nat)
    (patients : List PatientRow) (logs : List CallRow) :
    List CallRow × List Int :=
  runCalls deliver now (selectDue patients logs now) logs

/-! ## Cancellation (`cancel_call`, main.py lines 473-510) -/

/-- The `DELETE /calls/{call_id}` endpoint: look the row up; absent → HTTP
404 and no change; status `'completed'` → `UPDATE ... SET status =
'cancelled'` (no other column touched); any other status → `DELETE` the
row. -/
def cancel_call (logs : List CallRow) (call_id : Int) :
    List CallRow × Except (Nat × String) String :=
  match logs.find? (fun r => r.id = call_id) with
  | none => (logs, .error (404, "Call not found"))
  | some c =>
    if c.status = "completed" then
      (logs.map fun r => if r.id = call_id then { r with status := "cancelled" } else r,
       .ok "Call cancelled successfully")
    else
      (logs.filter fun r => ¬ r.id = call_id, .ok "Call cancelled successfully")

/-! ## Generation with persistence (main.py lines 777-786) -/

/-- `generate_ivr_schedule` including its final batch-persist step.  `insert`
models `db.create_call_logs_batch` (ids on success, an exception message on
failure).  The source wraps the insert in `try/except` and only prints a
warning, so an insert failure never reaches the caller: the function's first
component is exactly what the caller receives, the second is the log output.
The batch is only submitted when nonempty (`if call_logs_to_create:`). -/
def generate_and_persist (now : Nat) (patient_id : Int) (p : PatientCreate)
    (insert : List CallEntry → Except String (List Int)) :
    Except String (List CallEntry) × List String :=
  match generate_ivr_schedule now patient_id p with
  | .error e => (.error e, [])
  | .ok entries =>
    if entries = [] then (.ok entries, [])
    else
      match insert entries with
      | .ok _ => (.ok entries, [])
      | .error e =>
        (.ok entries, ["Warning: Failed to create some call logs: " ++ e])

/-! ## Patients table (`create_patient` / `update_patient`, database.py) -/

structure PatientsTable where
  rows : List PatientRow
  nextId : Int
deriving Repr, DecidableEq

/-- `Database.create_patient` (database.py lines 107-145): a pre-insert
duplicate check on the phone raises `ValueError` before anything is written;
otherwise the row is inserted with the next autoincrement id
(`risk_factors`/`medications` arrive JSON-encoded and are never NULL on this
path, `call_schedule` starts NULL). -/
def create_patient (t : PatientsTable) (name phone : String)
    (gestational_age_weeks : Int) (risk_factors medications : String)
    (risk_category : String) : PatientsTable × Except String Int :=
  match t.rows.find? (fun r => r.phone = phone) with
  | some existing =>
    (t, .error ("Phone number " ++ phone ++ " is already registered to patient: "
      ++ existing.name))
  | none =>
    ({ rows := t.rows ++
        [{ id := t.nextId
           name := name
           phone := phone
           gestational_age_weeks := gestational_age_weeks
           risk_factors := some risk_factors
           medications := some medications
           risk_category := risk_category
           call_schedule := none }]
       nextId := t.nextId + 1 },
     .ok t.nextId)

/-- The `**kwargs` of `Database.update_patient` restricted to its allowed
fields; `none` = field absent from the update.  For the JSON columns the
inner `Option` is the stored value (the source stores NULL for falsy
values). -/
structure PatientUpdateArgs where
  name : Option String := none
  phone : Option String := none
  gestational_age_weeks : Option Int := none
  risk_factors : Option (Option String) := none
  medications : Option (Option String) := none
  risk_category : Option String := none
  call_schedule : Option (Option String) := none
deriving Repr, DecidableEq

def PatientUpdateArgs.isEmpty (u : PatientUpdateArgs) : Bool :=
  u.name.isNone ∧ u.phone.isNone ∧ u.gestational_age_weeks.isNone ∧
  u.risk_factors.isNone ∧ u.medications.isNone ∧ u.risk_category.isNone ∧
  u.call_schedule.isNone

def applyUpdate (u : PatientUpdateArgs) (r : PatientRow) : PatientRow :=
  { r with
    name := u.name.getD r.name
    phone := u.phone.getD r.phone
    gestational_age_weeks := u.gestational_age_weeks.getD r.gestational_age_weeks
    risk_factors := u.risk_factors.getD r.risk_factors
    medications := u.medications.getD r.medications
    risk_category := u.risk_category.getD r.risk_category
    call_schedule := u.call_schedule.getD r.call_schedule }

/-- `Database.update_patient` (database.py lines 169-218): when a phone is
part of the update, a row with that phone and a different id raises
`ValueError` before anything is written; an empty update returns `False`
without writing; otherwise the `UPDATE ... WHERE id = ?` is applied and
`True` returned (also when no row matches the id). -/
def update_patient (t : PatientsTable) (patient_id : Int)
    (u : PatientUpdateArgs) : PatientsTable × Except String Bool :=
  match u.phone.bind (fun ph =>
      t.rows.find? (fun (r : PatientRow) => r.phone = ph ∧ r.id ≠ patient_id)) with
  | some existing =>
    (t, .error ("Phone number is already registered to patient: " ++ existing.name))
  | none =>
    if u.isEmpty then (t, .ok false)
    else
      ({ t with rows := t.rows.map fun (r : PatientRow) =>
          if r.id = patient_id then applyUpdate u r else r },
       .ok true)

/-! ## Claim-side definitions (spec §4.2)

These two definitions follow the specification's *words* for the medication
occurrence algorithm, to be compared with the source-derived definitions
above: base offset 0 for "today, time not yet passed", 7 for "today, time
passed", `d − today` for "later this calendar week", `7 + (d − today)` for
"earlier this week"; occurrence `c` at `now + (base_offset + 7*c) days` with
hour/minute set and seconds/microseconds zeroed. -/

def spec_base_offset (now : Nat) (h m : Int) (d : Int) : Nat :=
  let today := weekdayOf now
  if d = today then (if now < replaceHM now h m then 0 else 7)
  else if today < d then (d - today).toNat
  else (7 + (d - today)).toNat

def spec_med_occurrence (now : Nat) (h m : Int) (d : Int) (c : Nat) : Nat :=
  replaceHM (addDays now (spec_base_offset now h m d + 7 * c)) h m

/-! ## Concrete fixtures for witnesses and counterexamples -/

/-- Weekdays `{Mon}` at `09:00` (spec §8 example). -/
def medMon : Medication :=
  { name := "Iron", dosage := "50mg", frequency := ["Mon"], time := "09:00" }

/-- A patient at 38 weeks (horizon `W = 2`) carrying `medMon`. -/
def patientWed : PatientCreate :=
  { name := "Awa", phone := "+15550100", gestational_age_weeks := 38,
    risk_factors := [], medications := [medMon], risk_category := "low" }

/-- A Wednesday at 08:00 (epoch day 0 is a Monday). -/
def nowWed : Nat := 2 * usPerDay + 8 * usPerHour

/-- A medication whose time-of-day string parses to the out-of-range hour 25. -/
def medBadTime : Medication :=
  { name := "Iron", dosage := "", frequency := ["Mon"], time := "25:00" }

/-- A patient at 20 weeks carrying `medBadTime`. -/
def patientBadTime : PatientCreate :=
  { name := "Awa", phone := "+15550100", gestational_age_weeks := 20,
    risk_factors := [], medications := [medBadTime], risk_category := "low" }

/-- A high-risk patient at 39 weeks (horizon `W = 1`) with no medications. -/
def patientHigh : PatientCreate :=
  { name := "Bela", phone := "+15550101", gestational_age_weeks := 39,
    risk_factors := ["anemia"], medications := [], risk_category := "high" }

/-- A one-row patients table. -/
def tableOne : PatientsTable :=
  { rows := [{ id := 1, name := "Awa", phone := "+15550100",
               gestational_age_weeks := 20, risk_factors := some "[]",
               medications := some "[]", risk_category := "low",
               call_schedule := none }],
    nextId := 2 }

/-- A scheduled call row due at any time from `usPerDay` on. -/
def rowDue : CallRow :=
  { id := 5, patient_id := 1, call_type := "weekly_checkin",
    status := "scheduled", message_text := "hello",
    scheduled_time := usPerDay, completed_at := none }

/-- A completed call row. -/
def rowDone : CallRow :=
  { id := 6, patient_id := 1, call_type := "weekly_checkin",
    status := "completed", message_text := "hello",
    scheduled_time := usPerDay, completed_at := some (2 * usPerDay) }

/-- The schedule generated for `patientHigh` at time 0. -/
def esHigh : List CallEntry :=
  (generate_ivr_schedule 0 2 patientHigh).toOption.getD []

/-! ## Basic arithmetic lemmas about the timestamp model -/

lemma usPerDay_pos : 0 < usPerDay := by decide

lemma addDays_div (now k : Nat) : addDays now k / usPerDay = now / usPerDay + k := by
  unfold addDays
  exact Nat.add_mul_div_right now k usPerDay_pos

lemma lt_addDays (now : Nat) {k : Nat} (hk : 1 ≤ k) : now < addDays now k := by
  unfold addDays
  have h1 : 1 * usPerDay ≤ k * usPerDay := Nat.mul_le_mul_right usPerDay hk
  have h2 : 0 < usPerDay := usPerDay_pos
  omega

lemma lt_replaceHM_addDays (now : Nat) (h m : Int) {k : Nat} (hk : 1 ≤ k) :
    now < replaceHM (addDays now k) h m := by
  have hmod : now / usPerDay * usPerDay + now % usPerDay = now := Nat.div_add_mod' now usPerDay
  have hlt : now % usPerDay < usPerDay := Nat.mod_lt _ usPerDay_pos
  have hmul : 1 * usPerDay ≤ k * usPerDay := Nat.mul_le_mul_right usPerDay hk
  unfold replaceHM
  rw [addDays_div, Nat.add_mul]
  omega

lemma addDays_zero (now : Nat) : addDays now 0 = now := by
  simp [addDays]

/-! ## Shape of the generated entries -/

lemma mem_weeklyCheckins {now : Nat} {pid : Int} {p : PatientCreate} {W f : Nat}
    {e : CallEntry} (he : e ∈ weeklyCheckins now pid p W f) :
    e.call_type = "weekly_checkin" ∧ e.status = "scheduled" ∧
      e.patient_id = pid ∧ now < e.scheduled_time := by
  unfold weeklyCheckins at he
  simp only [List.mem_map, List.mem_range] at he
  obtain ⟨w, _, rfl⟩ := he
  exact ⟨rfl, rfl, rfl, lt_replaceHM_addDays now 9 0 (by omega)⟩

lemma mem_highRiskEntries {now : Nat} {pid : Int} {p : PatientCreate} {W f : Nat}
    {e : CallEntry} (he : e ∈ highRiskEntries now pid p W f) :
    e.call_type = "high_risk_monitoring" ∧ e.status = "scheduled" ∧
      e.patient_id = pid ∧ now < e.scheduled_time := by
  unfold highRiskEntries at he
  by_cases hrc : p.risk_category = "high"
  · simp only [hrc, if_true, List.mem_map, List.mem_range] at he
    obtain ⟨w, _, rfl⟩ := he
    exact ⟨rfl, rfl, rfl, lt_addDays now (by omega)⟩
  · simp [hrc] at he

lemma medWeekEntries_ok_mem {now : Nat} {pid : Int} {p : PatientCreate}
    {med : Medication} {hour minute : Int} {offsets : List (String × Nat)}
    {week : Nat} {ds : List String} {l : List CallEntry}
    (hok : medWeekEntries now pid p med hour minute offsets week ds = .ok l) :
    ∀ e ∈ l, e.call_type = "medication_reminder" ∧ e.status = "scheduled" ∧
      e.patient_id = pid ∧ now < e.scheduled_time := by
  induction ds generalizing l with
  | nil =>
    simp only [medWeekEntries, Except.ok.injEq] at hok
    subst hok; simp
  | cons d rest ih =>
    rw [medWeekEntries] at hok
    cases hd : dayMap d with
    | none => simp only [hd] at hok; exact ih hok
    | some dow =>
      cases hb : offsets.lookup d with
      | none => simp only [hd, hb] at hok; exact ih hok
      | some base =>
        simp only [hd, hb] at hok
        cases hct : replaceHMChecked (addDays now (base + week * 7)) hour minute with
        | error e => simp [hct, Bind.bind, Except.bind] at hok
        | ok ct =>
          simp only [hct, Bind.bind, Except.bind] at hok
          cases htl : medWeekEntries now pid p med hour minute offsets week rest with
          | error e => simp [htl, Bind.bind, Except.bind] at hok
          | ok tail =>
            simp only [htl, Bind.bind, Except.bind] at hok
            by_cases hfut : now < ct
            · simp only [hfut, if_pos, Except.ok.injEq] at hok
              subst hok
              intro e he
              rcases List.mem_cons.mp he with h1 | h2
              · subst h1; exact ⟨rfl, rfl, rfl, hfut⟩
              · exact ih htl e h2
            · simp only [hfut, if_neg, Except.ok.injEq, not_false_iff] at hok
              subst hok; exact ih htl

lemma medWeeksLoop_ok_mem {now : Nat} {pid : Int} {p : PatientCreate}
    {med : Medication} {hour minute : Int} {offsets : List (String × Nat)}
    {weeks : List Nat} {l : List CallEntry}
    (hok : medWeeksLoop now pid p med hour minute offsets weeks = .ok l) :
    ∀ e ∈ l, e.call_type = "medication_reminder" ∧ e.status = "scheduled" ∧
      e.patient_id = pid ∧ now < e.scheduled_time := by
  induction weeks generalizing l with
  | nil =>
    simp only [medWeeksLoop, Except.ok.injEq] at hok
    subst hok; simp
  | cons w ws ih =>
    rw [medWeeksLoop] at hok
    cases h1 : medWeekEntries now pid p med hour minute offsets w med.frequency with
    | error e => simp [h1, Bind.bind, Except.bind] at hok
    | ok es =>
      simp only [h1, Bind.bind, Except.bind] at hok
      cases h2 : medWeeksLoop now pid p med hour minute offsets ws with
      | error e => simp [h2, Bind.bind, Except.bind] at hok
      | ok tail =>
        simp only [h2, Bind.bind, Except.bind, Except.ok.injEq] at hok
        subst hok
        intro e he
        rcases List.mem_append.mp he with hh | hh
        · exact medWeekEntries_ok_mem h1 e hh
        · exact ih h2 e hh

lemma medicationEntries_ok_mem {now : Nat} {pid : Int} {p : PatientCreate}
    {W : Nat} {med : Medication} {l : List CallEntry}
    (hok : medicationEntries now pid p W med = .ok l) :
    ∀ e ∈ l, e.call_type = "medication_reminder" ∧ e.status = "scheduled" ∧
      e.patient_id = pid ∧ now < e.scheduled_time := by
  unfold medicationEntries at hok
  by_cases hf : med.frequency = []
  · simp only [hf, if_pos, Except.ok.injEq] at hok
    subst hok; simp
  · simp only [hf, if_neg, not_false_iff] at hok
    cases ho : buildDayOffsets now (parseTimeHM med.time).1 (parseTimeHM med.time).2 [] med.frequency with
    | error e => simp [ho, Bind.bind, Except.bind] at hok
    | ok offsets =>
      simp only [ho, Bind.bind, Except.bind] at hok
      exact medWeeksLoop_ok_mem hok

lemma allMedicationEntries_ok_mem {now : Nat} {pid : Int} {p : PatientCreate}
    {W : Nat} {meds : List Medication} {l : List CallEntry}
    (hok : allMedicationEntries now pid p W meds = .ok l) :
    ∀ e ∈ l, e.call_type = "medication_reminder" ∧ e.status = "scheduled" ∧
      e.patient_id = pid ∧ now < e.scheduled_time := by
  induction meds generalizing l with
  | nil =>
    simp only [allMedicationEntries, Except.ok.injEq] at hok
    subst hok; simp
  | cons med meds ih =>
    rw [allMedicationEntries] at hok
    cases h1 : medicationEntries now pid p W med with
    | error e => simp [h1, Bind.bind, Except.bind] at hok
    | ok es =>
      simp only [h1, Bind.bind, Except.bind] at hok
      cases h2 : allMedicationEntries now pid p W meds with
      | error e => simp [h2, Bind.bind, Except.bind] at hok
      | ok tail =>
        simp only [h2, Bind.bind, Except.bind, Except.ok.injEq] at hok
        subst hok
        intro e he
        rcases List.mem_append.mp he with hh | hh
        · exact medicationEntries_ok_mem h1 e hh
        · exact ih h2 e hh

/-- Splitting a successful generation run into its three segments. -/
lemma generate_ok_split {now : Nat} {pid : Int} {p : PatientCreate}
    {es : List CallEntry}
    (h : generate_ivr_schedule now pid p = .ok es) :
    ∃ meds, allMedicationEntries now pid p (horizonWeeks p.gestational_age_weeks)
        p.medications = .ok meds ∧
      es = weeklyCheckins now pid p (horizonWeeks p.gestational_age_weeks)
            (callFrequencyDays p.risk_category) ++ meds ++
          highRiskEntries now pid p (horizonWeeks p.gestational_age_weeks)
            (callFrequencyDays p.risk_category) := by
  unfold generate_ivr_schedule at h
  simp only [] at h
  cases hm : allMedicationEntries now pid p (horizonWeeks p.gestational_age_weeks)
      p.medications with
  | error e => rw [hm] at h; simp [Bind.bind, Except.bind] at h
  | ok meds =>
    rw [hm] at h
    simp only [Bind.bind, Except.bind, Except.ok.injEq] at h
    exact ⟨meds, rfl, h.symm⟩

/-- Every entry of a successful generation run: status `scheduled`, linked to
the patient, strictly future, and of one of the three call types. -/
lemma generate_ok_mem {now : Nat} {pid : Int} {p : PatientCreate}
    {es : List CallEntry}
    (h : generate_ivr_schedule now pid p = .ok es) :
    ∀ e ∈ es, e.status = "scheduled" ∧ e.patient_id = pid ∧
      now < e.scheduled_time ∧
      (e.call_type = "weekly_checkin" ∨ e.call_type = "medication_reminder" ∨
        e.call_type = "high_risk_monitoring") := by
  obtain ⟨meds, hm, rfl⟩ := generate_ok_split h
  intro e he
  rcases List.mem_append.mp he with hh | hh
  · rcases List.mem_append.mp hh with h1 | h1
    · obtain ⟨ht, hs, hp, hf⟩ := mem_weeklyCheckins h1
      exact ⟨hs, hp, hf, Or.inl ht⟩
    · obtain ⟨ht, hs, hp, hf⟩ := allMedicationEntries_ok_mem hm e h1
      exact ⟨hs, hp, hf, Or.inr (Or.inl ht)⟩
  · obtain ⟨ht, hs, hp, hf⟩ := mem_highRiskEntries hh
    exact ⟨hs, hp, hf, Or.inr (Or.inr ht)⟩

lemma filter_type_eq_self {l : List CallEntry} {T : String}
    (h : ∀ e ∈ l, e.call_type = T) :
    l.filter (fun e => e.call_type = T) = l := by
  rw [List.filter_eq_self]
  intro e he
  simp [h e he]

lemma filter_type_eq_nil {l : List CallEntry} {T T' : String} (hT : T ≠ T')
    (h : ∀ e ∈ l, e.call_type = T) :
    l.filter (fun e => e.call_type = T') = [] := by
  rw [List.filter_eq_nil_iff]
  intro e he
  simp [h e he, hT]

lemma weeklyCheckins_length (now : Nat) (pid : Int) (p : PatientCreate)
    (W f : Nat) : (weeklyCheckins now pid p W f).length = W := by
  simp [weeklyCheckins]

lemma medWeekEntries_ok_length {now : Nat} {pid : Int} {p : PatientCreate}
    {med : Medication} {hour minute : Int} {offsets : List (String × Nat)}
    {week : Nat} {ds : List String} {l : List CallEntry}
    (hok : medWeekEntries now pid p med hour minute offsets week ds = .ok l) :
    l.length ≤ ds.length := by
  induction ds generalizing l with
  | nil =>
    simp only [medWeekEntries, Except.ok.injEq] at hok
    subst hok; simp
  | cons d rest ih =>
    rw [medWeekEntries] at hok
    cases hd : dayMap d with
    | none =>
      simp only [hd] at hok
      exact (ih hok).trans (by simp)
    | some dow =>
      cases hb : offsets.lookup d with
      | none =>
        simp only [hd, hb] at hok
        exact (ih hok).trans (by simp)
      | some base =>
        simp only [hd, hb] at hok
        cases hct : replaceHMChecked (addDays now (base + week * 7)) hour minute with
        | error e => simp [hct, Bind.bind, Except.bind] at hok
        | ok ct =>
          simp only [hct, Bind.bind, Except.bind] at hok
          cases htl : medWeekEntries now pid p med hour minute offsets week rest with
          | error e => simp [htl, Bind.bind, Except.bind] at hok
          | ok tail =>
            simp only [htl, Bind.bind, Except.bind] at hok
            by_cases hfut : now < ct
            · simp only [hfut, if_pos, Except.ok.injEq] at hok
              subst hok
              simpa using ih htl
            · simp only [hfut, if_neg, not_false_iff, Except.ok.injEq] at hok
              subst hok
              exact (ih htl).trans (by simp)

lemma medWeeksLoop_ok_length {now : Nat} {pid : Int} {p : PatientCreate}
    {med : Medication} {hour minute : Int} {offsets : List (String × Nat)}
    {weeks : List Nat} {l : List CallEntry}
    (hok : medWeeksLoop now pid p med hour minute offsets weeks = .ok l) :
    l.length ≤ weeks.length * med.frequency.length := by
  induction weeks generalizing l with
  | nil =>
    simp only [medWeeksLoop, Except.ok.injEq] at hok
    subst hok; simp
  | cons w ws ih =>
    rw [medWeeksLoop] at hok
    cases h1 : medWeekEntries now pid p med hour minute offsets w med.frequency with
    | error e => simp [h1, Bind.bind, Except.bind] at hok
    | ok es =>
      simp only [h1, Bind.bind, Except.bind] at hok
      cases h2 : medWeeksLoop now pid p med hour minute offsets ws with
      | error e => simp [h2, Bind.bind, Except.bind] at hok
      | ok tail =>
        simp only [h2, Bind.bind, Except.bind, Except.ok.injEq] at hok
        subst hok
        have := medWeekEntries_ok_length h1
        have := ih h2
        simp only [List.length_append, List.length_cons]
        calc es.length + tail.length ≤
            med.frequency.length + ws.length * med.frequency.length := by omega
          _ = (ws.length + 1) * med.frequency.length := by ring

lemma medicationEntries_ok_length {now : Nat} {pid : Int} {p : PatientCreate}
    {W : Nat} {med : Medication} {l : List CallEntry}
    (hok : medicationEntries now pid p W med = .ok l) :
    l.length ≤ W * med.frequency.length := by
  unfold medicationEntries at hok
  by_cases hf : med.frequency = []
  · simp only [hf, if_pos, Except.ok.injEq] at hok
    subst hok; simp
  · simp only [hf, if_neg, not_false_iff] at hok
    cases ho : buildDayOffsets now (parseTimeHM med.time).1 (parseTimeHM med.time).2 [] med.frequency with
    | error e => simp [ho, Bind.bind, Except.bind] at hok
    | ok offsets =>
      simp only [ho, Bind.bind, Except.bind] at hok
      have := medWeeksLoop_ok_length hok
      simpa using this

lemma allMedicationEntries_ok_length {now : Nat} {pid : Int} {p : PatientCreate}
    {W : Nat} {meds : List Medication} {l : List CallEntry}
    (hok : allMedicationEntries now pid p W meds = .ok l) :
    l.length ≤ W * (meds.map (fun med => med.frequency.length)).sum := by
  induction meds generalizing l with
  | nil =>
    simp only [allMedicationEntries, Except.ok.injEq] at hok
    subst hok; simp
  | cons med meds ih =>
    rw [allMedicationEntries] at hok
    cases h1 : medicationEntries now pid p W med with
    | error e => simp [h1, Bind.bind, Except.bind] at hok
    | ok es =>
      simp only [h1, Bind.bind, Except.bind] at hok
      cases h2 : allMedicationEntries now pid p W meds with
      | error e => simp [h2, Bind.bind, Except.bind] at hok
      | ok tail =>
        simp only [h2, Bind.bind, Except.bind, Except.ok.injEq] at hok
        subst hok
        have := medicationEntries_ok_length h1
        have := ih h2
        simp only [List.length_append, List.map_cons, List.sum_cons, Nat.mul_add]
        omega

lemma horizonWeeks_of_ge_40 {ga : Int} (h : 40 ≤ ga) : horizonWeeks ga = 0 := by
  unfold horizonWeeks
  have h1 : max 0 (40 - ga) = 0 := by omega
  rw [h1]
  simp

/-- **C3** — Bounded horizon: generation uses
`weeks_remaining = max(0, 40 − gestational_age_weeks)` and at most
`W = min(weeks_remaining, 20)` weekly cycles of each call type (exactly `W`
weekly check-ins, `W` high-risk entries when high-risk and none otherwise, at
most `W` medication reminders per configured weekday); for
`gestational_age_weeks ≥ 40` the horizon is `0` and no weekly_checkin or
high_risk_monitoring entry is generated (indeed no entry at all). -/
theorem C3_bounded_horizon (now : Nat) (pid : Int) (p : PatientCreate)
    (es : List CallEntry) (h : generate_ivr_schedule now pid p = .ok es) :
    (es.filter (fun e => e.call_type = "weekly_checkin")).length =
      (min (max 0 (40 - p.gestational_age_weeks)) 20).toNat ∧
    (es.filter (fun e => e.call_type = "high_risk_monitoring")).length =
      (if p.risk_category = "high" then
        (min (max 0 (40 - p.gestational_age_weeks)) 20).toNat else 0) ∧
    (es.filter (fun e => e.call_type = "medication_reminder")).length ≤
      (min (max 0 (40 - p.gestational_age_weeks)) 20).toNat *
        (p.medications.map (fun med => med.frequency.length)).sum ∧
    (40 ≤ p.gestational_age_weeks → es = []) := by
  obtain ⟨meds, hm, rfl⟩ := generate_ok_split h
  have hW : horizonWeeks p.gestational_age_weeks =
      (min (max 0 (40 - p.gestational_age_weeks)) 20).toNat := rfl
  have hwkAll : ∀ e ∈ weeklyCheckins now pid p
      (horizonWeeks p.gestational_age_weeks) (callFrequencyDays p.risk_category),
      e.call_type = "weekly_checkin" := fun e he => (mem_weeklyCheckins he).1
  have hmedAll : ∀ e ∈ meds, e.call_type = "medication_reminder" :=
    fun e he => (allMedicationEntries_ok_mem hm e he).1
  have hhrAll : ∀ e ∈ highRiskEntries now pid p
      (horizonWeeks p.gestational_age_weeks) (callFrequencyDays p.risk_category),
      e.call_type = "high_risk_monitoring" := fun e he => (mem_highRiskEntries he).1
  refine ⟨?_, ?_, ?_, ?_⟩
  · rw [List.filter_append, List.filter_append,
      filter_type_eq_self hwkAll,
      filter_type_eq_nil (by decide) hmedAll,
      filter_type_eq_nil (by decide) hhrAll]
    simp [weeklyCheckins_length, hW]
  · rw [List.filter_append, List.filter_append,
      filter_type_eq_nil (by decide) hwkAll,
      filter_type_eq_nil (by decide) hmedAll,
      filter_type_eq_self hhrAll]
    unfold highRiskEntries
    by_cases hrc : p.risk_category = "high" <;> simp [hrc, hW]
  · rw [List.filter_append, List.filter_append,
      filter_type_eq_nil (by decide) hwkAll,
      filter_type_eq_self hmedAll,
      filter_type_eq_nil (by decide) hhrAll]
    simpa [hW] using allMedicationEntries_ok_length hm
  · intro hga
    have h0 := horizonWeeks_of_ge_40 hga
    have hmed0 : meds = [] := by
      have := allMedicationEntries_ok_length hm
      rw [h0] at this
      simpa using this
    rw [h0, hmed0]
    unfold weeklyCheckins highRiskEntries
    by_cases hrc : p.risk_category = "high" <;> simp [hrc]

/-- **C5** — No past-dated entries: every entry of a successful generation
run is scheduled strictly after the generation time, and the due-entry
selection at the generation time over the freshly persisted batch is
empty. -/
theorem C5_strictly_future (now : Nat) (pid : Int) (p : PatientCreate)
    (es : List CallEntry) (h : generate_ivr_schedule now pid p = .ok es) :
    (∀ e ∈ es, now < e.scheduled_time) ∧
    (∀ (patients : List PatientRow) (startId : Int),
      selectDue patients (create_call_logs_batch startId es) now = []) := by
  have hmem := generate_ok_mem h
  refine ⟨fun e he => (hmem e he).2.2.1, ?_⟩
  intro patients startId
  unfold selectDue
  have hfil : (create_call_logs_batch startId es).filter (fun r =>
      decide (r.status = "scheduled" ∧ r.scheduled_time ≤ now ∧
        (patients.any fun pt => decide (pt.id = r.patient_id)) = true)) = [] := by
    rw [List.filter_eq_nil_iff]
    intro r hr
    unfold create_call_logs_batch at hr
    obtain ⟨⟨i, e⟩, hie, rfl⟩ := List.mem_map.mp hr
    have he : e ∈ es := by
      have h2 : (i, e).2 ∈ es.enum.map Prod.snd := List.mem_map_of_mem Prod.snd hie
      rwa [List.enum_map_snd] at h2
    have := (hmem e he).2.2.1
    simp only [decide_eq_true_eq, not_and]
    intro _ hle
    omega
  rw [hfil]
  rfl

/-- **C6** — Weekly check-ins with risk-based cadence: the cadence is 3 days
for `high`, 5 for `medium`, 7 otherwise, and the weekly_checkin entries of a
successful generation run are exactly, for each cycle `w` below the horizon,
an entry at `now + (1 + w*interval_days) days` with the time of day set to
09:00, whose message reports gestational age `gestational_age_weeks + w`. -/
theorem C6_weekly_cadence (now : Nat) (pid : Int) (p : PatientCreate)
    (es : List CallEntry) (h : generate_ivr_schedule now pid p = .ok es) :
    callFrequencyDays "high" = 3 ∧ callFrequencyDays "medium" = 5 ∧
    (∀ rc, rc ≠ "high" → rc ≠ "medium" → callFrequencyDays rc = 7) ∧
    es.filter (fun e => e.call_type = "weekly_checkin") =
      (List.range (horizonWeeks p.gestational_age_weeks)).map fun (w : Nat) =>
        { patient_id := pid
          call_type := "weekly_checkin"
          status := "scheduled"
          message_text := generate_simple_message "weekly_checkin" p.name
            (p.gestational_age_weeks + (w : Int)) p.risk_factors p.risk_category
            (convert_medications_to_strings p.medications)
          scheduled_time :=
            replaceHM (addDays now (1 + w * callFrequencyDays p.risk_category)) 9 0 } := by
  obtain ⟨meds, hm, rfl⟩ := generate_ok_split h
  have hwkAll : ∀ e ∈ weeklyCheckins now pid p
      (horizonWeeks p.gestational_age_weeks) (callFrequencyDays p.risk_category),
      e.call_type = "weekly_checkin" := fun e he => (mem_weeklyCheckins he).1
  have hmedAll : ∀ e ∈ meds, e.call_type = "medication_reminder" :=
    fun e he => (allMedicationEntries_ok_mem hm e he).1
  have hhrAll : ∀ e ∈ highRiskEntries now pid p
      (horizonWeeks p.gestational_age_weeks) (callFrequencyDays p.risk_category),
      e.call_type = "high_risk_monitoring" := fun e he => (mem_highRiskEntries he).1
  refine ⟨rfl, rfl, ?_, ?_⟩
  · intro rc h1 h2
    simp [callFrequencyDays, h1, h2]
  · rw [List.filter_append, List.filter_append,
      filter_type_eq_self hwkAll,
      filter_type_eq_nil (by decide) hmedAll,
      filter_type_eq_nil (by decide) hhrAll]
    simp [weeklyCheckins]

/-! ## The medication occurrence algorithm agrees with the spec's formula -/

lemma weekdayOf_nonneg (t : Nat) : 0 ≤ weekdayOf t :=
  Int.emod_nonneg _ (by norm_num)

lemma weekdayOf_lt (t : Nat) : weekdayOf t < 7 :=
  Int.emod_lt_of_pos _ (by norm_num)

lemma baseDaysAhead_eq_spec (now : Nat) {h m : Int}
    (hc : 0 ≤ h ∧ h < 24 ∧ 0 ≤ m ∧ m < 60) (d : Int) :
    baseDaysAhead now h m d = .ok (spec_base_offset now h m d) := by
  unfold baseDaysAhead spec_base_offset replaceHMChecked
  simp only []
  by_cases h1 : d - weekdayOf now = 0
  · have h2 : d = weekdayOf now := by omega
    rw [if_pos h1, if_pos h2, if_pos hc]
    by_cases h3 : now < replaceHM now h m
    · simp [Bind.bind, Except.bind, h3, pure, Except.pure]
    · simp [Bind.bind, Except.bind, h3, pure, Except.pure]
  · have h2 : ¬(d = weekdayOf now) := by omega
    rw [if_neg h1, if_neg h2]
    by_cases h3 : d - weekdayOf now < 0
    · have h4 : ¬(weekdayOf now < d) := by omega
      rw [if_pos h3, if_neg h4]
      simp [pure, Except.pure]
    · have h4 : weekdayOf now < d := by omega
      rw [if_neg h3, if_pos h4]
      simp [pure, Except.pure]

/-- Lookup in a list extended on the right by one binding. -/
lemma lookup_append_single (acc : List (String × Nat)) (k k' : String) (v : Nat) :
    (acc ++ [(k, v)]).lookup k' =
      match acc.lookup k' with
      | some q => some q
      | none => if k' = k then some v else none := by
  induction acc with
  | nil =>
    simp only [List.nil_append, List.lookup]
    by_cases hk : k' = k
    · simp [hk]
    · have hb : (k' == k) = false := by simp [hk]
      simp [hb, hk]
  | cons kv acc ih =>
    by_cases hk : k' = kv.1
    · simp [List.lookup, hk]
    · have : (k' == kv.1) = false := by simp [hk]
      simp only [List.cons_append, List.lookup, this]
      exact ih

lemma buildDayOffsets_spec (now : Nat) {h m : Int}
    (hc : 0 ≤ h ∧ h < 24 ∧ 0 ≤ m ∧ m < 60) :
    ∀ (ds : List String) (acc : List (String × Nat)),
      (∀ dn ∈ ds, (dayMap dn).isSome) →
      (∀ dn ∈ ds, ∀ q, acc.lookup dn = some q →
        q = spec_base_offset now h m ((dayMap dn).getD 0)) →
      ∃ offsets, buildDayOffsets now h m acc ds = .ok offsets ∧
        (∀ k q, acc.lookup k = some q → offsets.lookup k = some q) ∧
        (∀ dn ∈ ds, offsets.lookup dn =
          some (spec_base_offset now h m ((dayMap dn).getD 0))) := by
  intro ds
  induction ds with
  | nil =>
    intro acc _ _
    exact ⟨acc, rfl, fun k q hq => hq, by simp⟩
  | cons dn ds ih =>
    intro acc hval hinv
    have hvdn : (dayMap dn).isSome := hval dn (by simp)
    obtain ⟨dow, hdow⟩ := Option.isSome_iff_exists.mp hvdn
    rw [buildDayOffsets]
    simp only [hdow, baseDaysAhead_eq_spec now hc dow, Bind.bind, Except.bind]
    have hdowv : (dayMap dn).getD 0 = dow := by rw [hdow]; rfl
    set acc' := if (acc.lookup dn).isSome then acc
      else acc ++ [(dn, spec_base_offset now h m dow)] with hacc'
    have hlookdn : acc'.lookup dn = some (spec_base_offset now h m dow) := by
      rw [hacc']
      cases hq : acc.lookup dn with
      | some q =>
        have hqv : q = spec_base_offset now h m dow := by
          rw [← hdowv]
          exact hinv dn (by simp) q hq
        simp only [hq, Option.isSome_some, if_true]
        rw [hqv]
      | none =>
        simp only [hq, Option.isSome_none, Bool.false_eq_true, if_false]
        rw [lookup_append_single, hq]
        simp
    have hinv' : ∀ d ∈ ds, ∀ q, acc'.lookup d = some q →
        q = spec_base_offset now h m ((dayMap d).getD 0) := by
      intro d hd q hq
      rw [hacc'] at hq
      by_cases hs : (acc.lookup dn).isSome
      · rw [if_pos hs] at hq
        exact hinv d (by simp [hd]) q hq
      · rw [if_neg hs] at hq
        rw [lookup_append_single] at hq
        cases hq2 : acc.lookup d with
        | some q2 =>
          rw [hq2] at hq
          simp only [Option.some.injEq] at hq
          subst hq
          exact hinv d (by simp [hd]) q2 hq2
        | none =>
          rw [hq2] at hq
          by_cases hdd : d = dn
          · rw [if_pos hdd] at hq
            simp only [Option.some.injEq] at hq
            subst hq
            rw [hdd, hdowv]
          · rw [if_neg hdd] at hq
            exact absurd hq (by simp)
    obtain ⟨offsets, heq, hpres, hrest⟩ := ih acc' (fun d hd => hval d (by simp [hd])) hinv'
    refine ⟨offsets, heq, ?_, ?_⟩
    · intro k q hq
      apply hpres
      rw [hacc']
      by_cases hs : (acc.lookup dn).isSome
      · rwa [if_pos hs]
      · rw [if_neg hs, lookup_append_single, hq]
    · intro d hd
      rcases List.mem_cons.mp hd with rfl | hd2
      · rw [hdowv]
        exact hpres d (spec_base_offset now h m dow) hlookdn
      · exact hrest d hd2

lemma now_lt_spec_med_occurrence (now : Nat) (h m : Int) {d : Int}
    (hd : 0 ≤ d) (c : Nat) :
    now < spec_med_occurrence now h m d c := by
  have hw0 := weekdayOf_nonneg now
  have hw6 := weekdayOf_lt now
  unfold spec_med_occurrence spec_base_offset
  simp only []
  by_cases h1 : d = weekdayOf now
  · by_cases h2 : now < replaceHM now h m
    · rw [if_pos h1, if_pos h2]
      cases c with
      | zero => simpa [addDays_zero] using h2
      | succ c => exact lt_replaceHM_addDays now h m (by omega)
    · rw [if_pos h1, if_neg h2]
      exact lt_replaceHM_addDays now h m (by omega)
  · rw [if_neg h1]
    by_cases h3 : weekdayOf now < d
    · rw [if_pos h3]
      have : 1 ≤ (d - weekdayOf now).toNat := by omega
      exact lt_replaceHM_addDays now h m (by omega)
    · rw [if_neg h3]
      have : 1 ≤ (7 + (d - weekdayOf now)).toNat := by omega
      exact lt_replaceHM_addDays now h m (by omega)

lemma dayMap_range {s : String} {d : Int} (h : dayMap s = some d) :
    0 ≤ d ∧ d < 7 := by
  unfold dayMap at h
  split at h <;> simp_all <;> omega

lemma medWeekEntries_eq_spec {now : Nat} {pid : Int} {p : PatientCreate}
    {med : Medication} {h m : Int} {offsets : List (String × Nat)}
    (hc : 0 ≤ h ∧ h < 24 ∧ 0 ≤ m ∧ m < 60) (week : Nat) :
    ∀ ds : List String,
      (∀ dn ∈ ds, (dayMap dn).isSome) →
      (∀ dn ∈ ds, offsets.lookup dn =
        some (spec_base_offset now h m ((dayMap dn).getD 0))) →
      medWeekEntries now pid p med h m offsets week ds =
        .ok (ds.map fun dn =>
          medEntry pid p med week
            (spec_med_occurrence now h m ((dayMap dn).getD 0) week)) := by
  intro ds
  induction ds with
  | nil => intro _ _; rfl
  | cons dn ds ih =>
    intro hval hlook
    obtain ⟨dow, hdow⟩ := Option.isSome_iff_exists.mp (hval dn (by simp))
    have hdowv : (dayMap dn).getD 0 = dow := by rw [hdow]; rfl
    have hd0 : 0 ≤ dow := (dayMap_range hdow).1
    have hlookdn := hlook dn (by simp)
    rw [hdowv] at hlookdn
    rw [medWeekEntries]
    simp only [hdow, hlookdn]
    have harg : spec_base_offset now h m dow + week * 7 =
        spec_base_offset now h m dow + 7 * week := by ring
    rw [harg]
    have hck : replaceHMChecked
        (addDays now (spec_base_offset now h m dow + 7 * week)) h m =
        .ok (spec_med_occurrence now h m dow week) := by
      unfold replaceHMChecked spec_med_occurrence
      rw [if_pos hc]
    rw [hck]
    simp only [Bind.bind, Except.bind]
    rw [ih (fun d hd => hval d (by simp [hd])) (fun d hd => hlook d (by simp [hd]))]
    have hfut : now < spec_med_occurrence now h m dow week :=
      now_lt_spec_med_occurrence now h m hd0 week
    simp [hfut, hdowv]

lemma medWeeksLoop_eq_spec {now : Nat} {pid : Int} {p : PatientCreate}
    {med : Medication} {h m : Int} {offsets : List (String × Nat)}
    (hc : 0 ≤ h ∧ h < 24 ∧ 0 ≤ m ∧ m < 60)
    (hval : ∀ dn ∈ med.frequency, (dayMap dn).isSome)
    (hlook : ∀ dn ∈ med.frequency, offsets.lookup dn =
      some (spec_base_offset now h m ((dayMap dn).getD 0))) :
    ∀ weeks : List Nat,
      medWeeksLoop now pid p med h m offsets weeks =
        .ok (weeks.flatMap fun c => med.frequency.map fun dn =>
          medEntry pid p med c
            (spec_med_occurrence now h m ((dayMap dn).getD 0) c)) := by
  intro weeks
  induction weeks with
  | nil => rfl
  | cons w ws ih =>
    rw [medWeeksLoop, medWeekEntries_eq_spec hc w med.frequency hval hlook, ih]
    simp [Bind.bind, Except.bind, List.flatMap]

/-- **C2** — Medication occurrence algorithm: for every medication with a
non-empty, recognized weekday list, whose time-of-day string parses to an
in-range `h:m`, the generated occurrences are exactly, for every cycle
`c ∈ [0, W)` and every configured weekday `d`, one entry at
`now + (base_offset(d) + 7*c) days` with hour/minute set to `h:m` and
seconds/microseconds zeroed, where `base_offset` follows the spec's
case analysis (0 today-before-time, 7 today-after-time, `d − today` later
this week, `7 + (d − today)` earlier this week). -/
theorem C2_med_occurrences (now : Nat) (pid : Int) (p : PatientCreate)
    (med : Medication) (W : Nat) (h m : Int)
    (hne : med.frequency ≠ [])
    (hval : ∀ dn ∈ med.frequency, (dayMap dn).isSome)
    (htime : parseTimeHM med.time = (h, m))
    (hh0 : 0 ≤ h) (hh : h < 24) (hm0 : 0 ≤ m) (hm : m < 60) :
    medicationEntries now pid p W med =
      .ok ((List.range W).flatMap fun c => med.frequency.map fun dn =>
        medEntry pid p med c
          (spec_med_occurrence now h m ((dayMap dn).getD 0) c)) := by
  have hc : 0 ≤ h ∧ h < 24 ∧ 0 ≤ m ∧ m < 60 := ⟨hh0, hh, hm0, hm⟩
  unfold medicationEntries
  rw [if_neg hne, htime]
  obtain ⟨offsets, heq, _, hlook⟩ :=
    buildDayOffsets_spec now hc med.frequency [] hval (by simp [List.lookup])
  simp only []
  rw [heq]
  simp only [Bind.bind, Except.bind]
  exact medWeeksLoop_eq_spec hc hval hlook (List.range W)

/-! ## Executor tick: at-most-once execution -/

lemma update_call_status_map_id (logs : List CallRow) (cid : Int) (st : String)
    (ca : Option Nat) :
    (update_call_status logs cid st ca).map (fun r => r.id) =
      logs.map (fun r => r.id) := by
  unfold update_call_status
  rw [List.map_map]
  apply List.map_congr_left
  intro r _
  cases ca <;> by_cases h : r.id = cid <;> simp [h]

lemma runCalls_map_id (deliver : Int → Option String) (now : Nat) :
    ∀ (todo logs : List CallRow),
    ((runCalls deliver now todo logs).1).map (fun r => r.id) =
      logs.map (fun r => r.id) := by
  intro todo
  induction todo with
  | nil => intro logs; rfl
  | cons c rest ih =>
    intro logs
    rw [runCalls]
    cases hd : deliver c.id with
    | none => exact ih logs
    | some sid =>
      rcases hr : runCalls deliver now rest
          (update_call_status logs c.id "completed" (some now)) with ⟨final, ids⟩
      simp only [hr]
      have := ih (update_call_status logs c.id "completed" (some now))
      rw [hr] at this
      simpa [update_call_status_map_id] using this

lemma runCalls_exec_subset (deliver : Int → Option String) (now : Nat) :
    ∀ (todo logs : List CallRow) (cid : Int),
    cid ∈ (runCalls deliver now todo logs).2 → cid ∈ todo.map (fun r => r.id) := by
  intro todo
  induction todo with
  | nil => intro logs cid h; simp [runCalls] at h
  | cons c rest ih =>
    intro logs cid h
    rw [runCalls] at h
    cases hd : deliver c.id with
    | none =>
      simp only [hd] at h
      exact List.mem_cons_of_mem _ (ih logs cid h)
    | some sid =>
      rcases hr : runCalls deliver now rest
          (update_call_status logs c.id "completed" (some now)) with ⟨final, ids⟩
      simp only [hd, hr] at h
      simp only [List.map_cons]
      rcases List.mem_cons.mp h with rfl | h2
      · exact List.mem_cons_self _ _
      · refine List.mem_cons_of_mem _
          (ih (update_call_status logs c.id "completed" (some now)) cid ?_)
        rw [hr]
        exact h2

lemma update_completed_sets (logs : List CallRow) (cid : Int) (t : Option Nat) :
    ∀ r ∈ update_call_status logs cid "completed" t,
      r.id = cid → r.status = "completed" := by
  intro r hr hid
  unfold update_call_status at hr
  obtain ⟨r0, hr0, rfl⟩ := List.mem_map.mp hr
  by_cases h : r0.id = cid
  · cases t <;> simp [h]
  · simp only [h, if_neg, not_false_iff] at hid

lemma update_completed_pres {logs : List CallRow} {cid : Int}
    (h : ∀ r ∈ logs, r.id = cid → r.status = "completed") (cid2 : Int)
    (t : Option Nat) :
    ∀ r ∈ update_call_status logs cid2 "completed" t,
      r.id = cid → r.status = "completed" := by
  intro r hr hid
  unfold update_call_status at hr
  obtain ⟨r0, hr0, rfl⟩ := List.mem_map.mp hr
  by_cases h2 : r0.id = cid2
  · cases t <;> simp [h2]
  · simp only [h2, if_neg, not_false_iff] at hid ⊢
    exact h r0 hr0 hid

lemma runCalls_completed_stable (deliver : Int → Option String) (now : Nat)
    (cid : Int) :
    ∀ (todo logs : List CallRow),
    (∀ r ∈ logs, r.id = cid → r.status = "completed") →
    ∀ r ∈ (runCalls deliver now todo logs).1, r.id = cid → r.status = "completed" := by
  intro todo
  induction todo with
  | nil => intro logs h; exact h
  | cons c rest ih =>
    intro logs h
    rw [runCalls]
    cases hd : deliver c.id with
    | none => exact ih logs h
    | some sid =>
      rcases hr : runCalls deliver now rest
          (update_call_status logs c.id "completed" (some now)) with ⟨final, ids⟩
      simp only [hr]
      have := ih (update_call_status logs c.id "completed" (some now))
        (update_completed_pres h c.id (some now))
      rw [hr] at this
      exact this

lemma runCalls_completes (deliver : Int → Option String) (now : Nat) (cid : Int) :
    ∀ (todo logs : List CallRow),
    cid ∈ (runCalls deliver now todo logs).2 →
    ∀ r ∈ (runCalls deliver now todo logs).1, r.id = cid → r.status = "completed" := by
  intro todo
  induction todo with
  | nil => intro logs h; simp [runCalls] at h
  | cons c rest ih =>
    intro logs h
    rw [runCalls] at h ⊢
    cases hd : deliver c.id with
    | none =>
      simp only [hd] at h
      exact ih logs h
    | some sid =>
      rcases hr : runCalls deliver now rest
          (update_call_status logs c.id "completed" (some now)) with ⟨final, ids⟩
      simp only [hd, hr] at h ⊢
      rcases List.mem_cons.mp h with rfl | h2
      · have := runCalls_completed_stable deliver now c.id rest
          (update_call_status logs c.id "completed" (some now))
          (update_completed_sets logs c.id (some now))
        rw [hr] at this
        exact this
      · have := ih (update_call_status logs c.id "completed" (some now)) (by rw [hr]; exact h2)
        rw [hr] at this
        exact this

lemma mem_insertByTime {x c : CallRow} : ∀ {l : List CallRow},
    x ∈ insertByTime c l → x = c ∨ x ∈ l := by
  intro l
  induction l with
  | nil =>
    intro h
    simp only [insertByTime, List.mem_singleton] at h
    exact Or.inl h
  | cons d ds ih =>
    intro h
    rw [insertByTime] at h
    by_cases hlt : c.scheduled_time < d.scheduled_time
    · rw [if_pos hlt] at h
      rcases List.mem_cons.mp h with rfl | h2
      · exact Or.inl rfl
      · exact Or.inr h2
    · rw [if_neg hlt] at h
      rcases List.mem_cons.mp h with rfl | h2
      · exact Or.inr (List.mem_cons_self _ _)
      · rcases ih h2 with h3 | h3
        · exact Or.inl h3
        · exact Or.inr (List.mem_cons_of_mem _ h3)

lemma mem_sortByTime {x : CallRow} : ∀ {l : List CallRow},
    x ∈ sortByTime l → x ∈ l := by
  intro l
  induction l with
  | nil => intro h; simp [sortByTime] at h
  | cons c cs ih =>
    intro h
    rw [sortByTime] at h
    rcases mem_insertByTime h with rfl | h2
    · exact List.mem_cons_self _ _
    · exact List.mem_cons_of_mem _ (ih h2)

lemma selectDue_mem {patients : List PatientRow} {logs : List CallRow}
    {now : Nat} {r : CallRow} (h : r ∈ selectDue patients logs now) :
    r ∈ logs ∧ r.status = "scheduled" ∧ r.scheduled_time ≤ now := by
  unfold selectDue at h
  have h1 := List.take_subset 10 _ h
  have h2 := mem_sortByTime h1
  have h3 := List.mem_filter.mp h2
  refine ⟨h3.1, ?_, ?_⟩
  · have := h3.2
    simp only [decide_eq_true_eq] at this
    exact this.1
  · have := h3.2
    simp only [decide_eq_true_eq] at this
    exact this.2.1

/-- **C1** — At-most-once execution across sequential ticks: when an entry
was due and successfully delivered in a tick, its status is `completed` in
the resulting table, so an immediately following tick at the same clock value
selects it zero times and performs no delivery for it. -/
theorem C1_at_most_once (deliver : Int → Option String) (now : Nat)
    (patients : List PatientRow) (logs : List CallRow) (cid : Int)
    (h : cid ∈ (check_and_execute_calls deliver now patients logs).2) :
    (∃ r ∈ (check_and_execute_calls deliver now patients logs).1,
      r.id = cid ∧ r.status = "completed") ∧
    (∀ r ∈ selectDue patients (check_and_execute_calls deliver now patients logs).1 now,
      r.id ≠ cid) ∧
    cid ∉ (check_and_execute_calls deliver now patients
      (check_and_execute_calls deliver now patients logs).1).2 := by
  unfold check_and_execute_calls at h ⊢
  have hcomp : ∀ r ∈ (runCalls deliver now (selectDue patients logs now) logs).1,
      r.id = cid → r.status = "completed" :=
    runCalls_completes deliver now cid (selectDue patients logs now) logs h
  have hex : ∃ r ∈ (runCalls deliver now (selectDue patients logs now) logs).1,
      r.id = cid ∧ r.status = "completed" := by
    have h1 := runCalls_exec_subset deliver now (selectDue patients logs now) logs cid h
    obtain ⟨r0, hr0, hid0⟩ := List.mem_map.mp h1
    have hr0logs : r0 ∈ logs := (selectDue_mem hr0).1
    have h2 : cid ∈ logs.map (fun r => r.id) := by
      exact List.mem_map.mpr ⟨r0, hr0logs, hid0⟩
    rw [← runCalls_map_id deliver now (selectDue patients logs now) logs] at h2
    obtain ⟨r1, hr1, hid1⟩ := List.mem_map.mp h2
    exact ⟨r1, hr1, hid1, hcomp r1 hr1 hid1⟩
  have hsel : ∀ r ∈ selectDue patients
      (runCalls deliver now (selectDue patients logs now) logs).1 now, r.id ≠ cid := by
    intro r hr hid
    obtain ⟨hmem, hsch, _⟩ := selectDue_mem hr
    have := hcomp r hmem hid
    rw [this] at hsch
    exact absurd hsch (by decide)
  refine ⟨hex, hsel, ?_⟩
  intro hin
  have h1 := runCalls_exec_subset deliver now _ _ cid hin
  obtain ⟨r0, hr0, hid0⟩ := List.mem_map.mp h1
  exact hsel r0 hr0 hid0

/-! ## Cancellation -/

/-- **C9** — Cancellation contract: on an entry found with status
`scheduled` the row is deleted, so no later due-entry selection can return
its id; on an entry found with status `completed` only the status column
changes to `cancelled` (`completed_at` and every other column survive
unchanged); on an id that matches no row the endpoint returns HTTP 404 and
the table is unchanged. -/
theorem C9_cancellation (logs : List CallRow) (cid : Int) :
    (∀ c, logs.find? (fun r => r.id = cid) = some c → c.status = "scheduled" →
      (∀ r ∈ (cancel_call logs cid).1, r.id ≠ cid) ∧
      (cancel_call logs cid).2 = .ok "Call cancelled successfully" ∧
      (∀ (patients : List PatientRow) (t : Nat),
        ∀ r ∈ selectDue patients (cancel_call logs cid).1 t, r.id ≠ cid)) ∧
    (∀ c, logs.find? (fun r => r.id = cid) = some c → c.status = "completed" →
      (cancel_call logs cid).2 = .ok "Call cancelled successfully" ∧
      (∀ r ∈ logs, r.id = cid →
        { r with status := "cancelled" } ∈ (cancel_call logs cid).1) ∧
      (∀ r ∈ logs, r.id ≠ cid → r ∈ (cancel_call logs cid).1) ∧
      ((cancel_call logs cid).1.map
          (fun r => (r.id, r.patient_id, r.call_type, r.message_text,
            r.scheduled_time, r.completed_at)) =
        logs.map (fun r => (r.id, r.patient_id, r.call_type, r.message_text,
          r.scheduled_time, r.completed_at)))) ∧
    (logs.find? (fun r => r.id = cid) = none →
      cancel_call logs cid = (logs, .error (404, "Call not found"))) := by
  refine ⟨?_, ?_, ?_⟩
  · intro c hfind hstat
    have hnc : ¬(c.status = "completed") := by rw [hstat]; decide
    have hres : (cancel_call logs cid).1 = logs.filter (fun r => ¬ r.id = cid) ∧
        (cancel_call logs cid).2 = .ok "Call cancelled successfully" := by
      unfold cancel_call
      simp only [hfind]
      rw [if_neg hnc]
      exact ⟨rfl, rfl⟩
    have hno : ∀ r ∈ (cancel_call logs cid).1, r.id ≠ cid := by
      rw [hres.1]
      intro r hr
      have := (List.mem_filter.mp hr).2
      simpa using this
    refine ⟨hno, hres.2, ?_⟩
    intro patients t r hr
    exact hno r (selectDue_mem hr).1
  · intro c hfind hstat
    have hres : (cancel_call logs cid).1 =
        logs.map (fun r => if r.id = cid then { r with status := "cancelled" } else r) ∧
        (cancel_call logs cid).2 = .ok "Call cancelled successfully" := by
      unfold cancel_call
      simp only [hfind]
      rw [if_pos hstat]
      exact ⟨rfl, rfl⟩
    refine ⟨hres.2, ?_, ?_, ?_⟩
    · intro r hr hid
      rw [hres.1]
      have := List.mem_map_of_mem
        (fun r => if r.id = cid then { r with status := "cancelled" } else r) hr
      simpa [hid] using this
    · intro r hr hid
      rw [hres.1]
      have := List.mem_map_of_mem
        (fun r => if r.id = cid then { r with status := "cancelled" } else r) hr
      simpa [hid] using this
    · rw [hres.1, List.map_map]
      apply List.map_congr_left
      intro r _
      by_cases hid : r.id = cid <;> simp [hid]
  · intro hfind
    unfold cancel_call
    simp only [hfind]

/-! ## Phone uniqueness invariant -/

lemma nodup_phone_after_update {ph : String} {pid : Int} :
    ∀ rows : List PatientRow,
      (rows.map (fun r => r.id)).Nodup →
      (rows.map (fun r => r.phone)).Nodup →
      (∀ r ∈ rows, r.phone = ph → r.id = pid) →
      (rows.map (fun r => if r.id = pid then ph else r.phone)).Nodup := by
  intro rows
  induction rows with
  | nil => intro _ _ _; simp
  | cons r rest ih =>
    intro hids hphs hinv
    simp only [List.map_cons, List.nodup_cons] at hids hphs ⊢
    refine ⟨?_, ih hids.2 hphs.2 (fun r' hr' => hinv r' (List.mem_cons_of_mem _ hr'))⟩
    intro hmem
    obtain ⟨r', hr', heq⟩ := List.mem_map.mp hmem
    have hid' : r'.id ≠ r.id := by
      intro hcontra
      exact hids.1 (List.mem_map.mpr ⟨r', hr', hcontra⟩)
    by_cases h1 : r.id = pid
    · rw [if_pos h1] at heq
      have h2 : r'.id ≠ pid := by rw [← h1]; exact hid'
      rw [if_neg h2] at heq
      exact h2 (hinv r' (List.mem_cons_of_mem _ hr') heq)
    · rw [if_neg h1] at heq
      by_cases h2 : r'.id = pid
      · rw [if_pos h2] at heq
        exact h1 (hinv r (List.mem_cons_self _ _) heq.symm)
      · rw [if_neg h2] at heq
        exact hphs.1 (List.mem_map.mpr ⟨r', hr', heq⟩)

/-- **C10** — Phone-uniqueness invariant: on a table whose rows have distinct
ids and distinct phones, `create_patient` and `update_patient` preserve
phone-distinctness; `create_patient` on an already-registered phone raises
`ValueError` and inserts nothing; `update_patient` moving a patient onto a
phone registered to a different id raises `ValueError` and changes
nothing. -/
theorem C10_phone_uniqueness (t : PatientsTable)
    (hids : (t.rows.map (fun r => r.id)).Nodup)
    (hph : (t.rows.map (fun r => r.phone)).Nodup) :
    (∀ name phone gaw rf meds rc,
      (((create_patient t name phone gaw rf meds rc).1).rows.map
        (fun r => r.phone)).Nodup) ∧
    (∀ name phone gaw rf meds rc, (∃ r ∈ t.rows, r.phone = phone) →
      (create_patient t name phone gaw rf meds rc).1 = t ∧
      ∃ e, (create_patient t name phone gaw rf meds rc).2 = .error e) ∧
    (∀ pid u, (((update_patient t pid u).1).rows.map (fun r => r.phone)).Nodup) ∧
    (∀ pid u ph, u.phone = some ph → (∃ r ∈ t.rows, r.phone = ph ∧ r.id ≠ pid) →
      (update_patient t pid u).1 = t ∧
      ∃ e, (update_patient t pid u).2 = .error e) := by
  refine ⟨?_, ?_, ?_, ?_⟩
  · intro name phone gaw rf meds rc
    unfold create_patient
    cases hf : t.rows.find? (fun r => r.phone = phone) with
    | some existing => exact hph
    | none =>
      have hnotin : ∀ r ∈ t.rows, r.phone ≠ phone := by
        intro r hr
        have := List.find?_eq_none.mp hf r hr
        simpa using this
      simp only [List.map_append, List.map_cons, List.map_nil]
      rw [List.nodup_append]
      refine ⟨hph, by simp, ?_⟩
      intro x hx
      obtain ⟨r, hr, rfl⟩ := List.mem_map.mp hx
      simp only [List.mem_singleton]
      exact fun hcontra => hnotin r hr (by rw [hcontra])
  · intro name phone gaw rf meds rc hex
    obtain ⟨r, hr, hrp⟩ := hex
    have hissome : (t.rows.find? (fun r => r.phone = phone)).isSome :=
      List.find?_isSome.mpr ⟨r, hr, by simpa using hrp⟩
    obtain ⟨existing, hf⟩ := Option.isSome_iff_exists.mp hissome
    unfold create_patient
    rw [hf]
    exact ⟨rfl, _, rfl⟩
  · intro pid u
    unfold update_patient
    cases hu : u.phone with
    | none =>
      simp only [hu, Option.none_bind]
      by_cases hemp : u.isEmpty
      · rw [if_pos hemp]; exact hph
      · rw [if_neg hemp]
        simp only [List.map_map]
        have : t.rows.map ((fun r => r.phone) ∘
            (fun r => if r.id = pid then applyUpdate u r else r)) =
            t.rows.map (fun r => r.phone) := by
          apply List.map_congr_left
          intro r _
          by_cases hid : r.id = pid
          · simp [hid, applyUpdate, hu]
          · simp [hid]
        rw [this]
        exact hph
    | some ph =>
      cases hf : t.rows.find? (fun r => r.phone = ph ∧ r.id ≠ pid) with
      | some existing => simp only [hu, Option.some_bind, hf]; exact hph
      | none =>
        simp only [hu, Option.some_bind, hf]
        by_cases hemp : u.isEmpty
        · rw [if_pos hemp]; exact hph
        · rw [if_neg hemp]
          simp only [List.map_map]
          have hinv : ∀ r ∈ t.rows, r.phone = ph → r.id = pid := by
            intro r hr hrp
            have := List.find?_eq_none.mp hf r hr
            simp only [decide_eq_true_eq] at this
            by_contra hne
            exact this ⟨hrp, hne⟩
          have : t.rows.map ((fun r => r.phone) ∘
              (fun r => if r.id = pid then applyUpdate u r else r)) =
              t.rows.map (fun r => if r.id = pid then ph else r.phone) := by
            apply List.map_congr_left
            intro r _
            by_cases hid : r.id = pid
            · simp [hid, applyUpdate, hu]
            · simp [hid]
          rw [this]
          exact nodup_phone_after_update t.rows hids hph hinv
  · intro pid u ph hu hex
    obtain ⟨r, hr, hrp, hrne⟩ := hex
    have hissome : (t.rows.find? (fun r => r.phone = ph ∧ r.id ≠ pid)).isSome :=
      List.find?_isSome.mpr ⟨r, hr, by simp [hrp, hrne]⟩
    obtain ⟨existing, hf⟩ := Option.isSome_iff_exists.mp hissome
    unfold update_patient
    rw [hu]
    simp only [Option.some_bind, hf]
    exact ⟨trivial, _, rfl⟩

/-! ## High-risk monitoring schedule (claim C4) -/

/-- **C4** (amended) — High-risk monitoring schedule: a successful generation
run contains high_risk_monitoring entries exactly when `risk_category` is
`high`, and for each cycle `w` below the horizon the entry is scheduled at
`now + (w*interval_days + 1) days`, keeping the generation time's time of day
(not at `now + 1 day + w*interval_days + 1 day` as originally claimed). -/
theorem C4_high_risk_schedule (now : Nat) (pid : Int) (p : PatientCreate)
    (es : List CallEntry) (h : generate_ivr_schedule now pid p = .ok es) :
    es.filter (fun e => e.call_type = "high_risk_monitoring") =
      (if p.risk_category = "high" then
        (List.range (horizonWeeks p.gestational_age_weeks)).map fun (w : Nat) =>
          { patient_id := pid
            call_type := "high_risk_monitoring"
            status := "scheduled"
            message_text := generate_simple_message "high_risk_monitoring" p.name
              (p.gestational_age_weeks + (w : Int)) p.risk_factors p.risk_category
              (convert_medications_to_strings p.medications)
            scheduled_time := addDays now (w * callFrequencyDays p.risk_category + 1) }
       else []) := by
  obtain ⟨meds, hm, rfl⟩ := generate_ok_split h
  have hwkAll : ∀ e ∈ weeklyCheckins now pid p
      (horizonWeeks p.gestational_age_weeks) (callFrequencyDays p.risk_category),
      e.call_type = "weekly_checkin" := fun e he => (mem_weeklyCheckins he).1
  have hmedAll : ∀ e ∈ meds, e.call_type = "medication_reminder" :=
    fun e he => (allMedicationEntries_ok_mem hm e he).1
  have hhrAll : ∀ e ∈ highRiskEntries now pid p
      (horizonWeeks p.gestational_age_weeks) (callFrequencyDays p.risk_category),
      e.call_type = "high_risk_monitoring" := fun e he => (mem_highRiskEntries he).1
  rw [List.filter_append, List.filter_append,
    filter_type_eq_nil (by decide) hwkAll,
    filter_type_eq_nil (by decide) hmedAll,
    filter_type_eq_self hhrAll]
  simp [highRiskEntries]

/-- **C4** (counterexample to the original claim) — for the 39-week high-risk
patient generated at time 0, the single high-risk entry is scheduled at
`now + 1 day`, not at `now + 1 day + 0*interval_days + 1 day = now + 2 days`
as the claim's formula requires. -/
theorem C4_counterexample :
    ((generate_ivr_schedule 0 2 patientHigh).map (fun es =>
      (es.filter (fun e => e.call_type = "high_risk_monitoring")).map
        (fun e => e.scheduled_time))) = .ok [usPerDay] ∧
    usPerDay ≠ addDays (addDays 0 1) (0 * 3 + 1) := by
  refine ⟨by rfl, by decide⟩

/-! ## Malformed time-of-day can raise (claim C7) -/

/-- **C7** — The planning call is *not* tolerant of every time-of-day string:
a medication whose time string parses to an out-of-range hour (here `"25:00"`)
makes `generate_ivr_schedule` raise `ValueError` from `datetime.replace`,
because the range check sits outside the parser's `try/except`. -/
theorem C7_malformed_time_raises :
    generate_ivr_schedule 0 1 patientBadTime =
      .error "ValueError: hour/minute out of range" := by
  rfl

/-! ## Storage-failure semantics of generation (claim C8) -/

/-- **C8** (amended) — Storage-failure semantics: when the batch insert of a
nonempty computed schedule fails, `generate_ivr_schedule` swallows the
exception — the caller receives the full computed in-memory schedule with no
failure indication — and the failure is only recorded as a printed
warning. -/
theorem C8_storage_failure (now : Nat) (pid : Int) (p : PatientCreate)
    (insert : List CallEntry → Except String (List Int))
    (es : List CallEntry) (err : String)
    (hgen : generate_ivr_schedule now pid p = .ok es)
    (hne : ¬(es = []))
    (hins : insert es = .error err) :
    generate_and_persist now pid p insert =
      (.ok es, ["Warning: Failed to create some call logs: " ++ err]) := by
  unfold generate_and_persist
  simp only [hgen]
  rw [if_neg hne]
  simp only [hins]

/-- **C8** (counterexample to the original claim) — with a failing insert,
the caller-visible result of generation is `.ok` and identical to the result
under a succeeding insert: the persistence failure is not reported to the
caller. -/
theorem C8_counterexample :
    (generate_and_persist 0 2 patientHigh (fun _ => .error "disk I/O error")).1 =
      (generate_and_persist 0 2 patientHigh (fun _ => .ok [])).1 ∧
    ((generate_and_persist 0 2 patientHigh
      (fun _ => .error "disk I/O error")).1).isOk = true := by
  refine ⟨by rfl, by rfl⟩

/-! ## Witnesses: the theorems above applied at concrete inputs -/

/-- C1 at a concrete due entry: id 5, due at `usPerDay`, tick at `2*usPerDay`
with a delivery oracle that always succeeds. -/
theorem C1_witness :
    (∃ r ∈ (check_and_execute_calls (fun _ => some "CA123") (2 * usPerDay)
        tableOne.rows [rowDue]).1, r.id = 5 ∧ r.status = "completed") ∧
    (∀ r ∈ selectDue tableOne.rows
        (check_and_execute_calls (fun _ => some "CA123") (2 * usPerDay)
          tableOne.rows [rowDue]).1 (2 * usPerDay), r.id ≠ 5) ∧
    (5 : Int) ∉ (check_and_execute_calls (fun _ => some "CA123") (2 * usPerDay)
      tableOne.rows
      (check_and_execute_calls (fun _ => some "CA123") (2 * usPerDay)
        tableOne.rows [rowDue]).1).2 :=
  C1_at_most_once (fun _ => some "CA123") (2 * usPerDay) tableOne.rows [rowDue] 5
    (by decide)

/-- C2 at the spec's example: weekdays `{Mon}`, time `09:00`, generated on a
Wednesday at 08:00 with `W = 2` — exactly two occurrences, the upcoming
Monday at 09:00 (day 7) and seven days later (day 14). -/
theorem C2_witness :
    medicationEntries nowWed 1 patientWed 2 medMon =
      .ok ((List.range 2).flatMap fun c => medMon.frequency.map fun dn =>
        medEntry 1 patientWed medMon c
          (spec_med_occurrence nowWed 9 0 ((dayMap dn).getD 0) c)) ∧
    (medicationEntries nowWed 1 patientWed 2 medMon).map
        (fun l => l.map (fun e => e.scheduled_time)) =
      .ok [7 * usPerDay + 9 * usPerHour, 14 * usPerDay + 9 * usPerHour] := by
  have h := C2_med_occurrences nowWed 1 patientWed medMon 2 9 0
    (by decide) (by decide) (by rfl) (by decide) (by decide) (by decide) (by decide)
  exact ⟨h, by rw [h]; rfl⟩

/-- C3 at the 39-week high-risk patient (horizon 1). -/
theorem C3_witness :
    (esHigh.filter (fun e => e.call_type = "weekly_checkin")).length =
      (min (max 0 (40 - patientHigh.gestational_age_weeks)) 20).toNat ∧
    (esHigh.filter (fun e => e.call_type = "high_risk_monitoring")).length =
      (if patientHigh.risk_category = "high" then
        (min (max 0 (40 - patientHigh.gestational_age_weeks)) 20).toNat else 0) ∧
    (esHigh.filter (fun e => e.call_type = "medication_reminder")).length ≤
      (min (max 0 (40 - patientHigh.gestational_age_weeks)) 20).toNat *
        (patientHigh.medications.map (fun med => med.frequency.length)).sum ∧
    (40 ≤ patientHigh.gestational_age_weeks → esHigh = []) :=
  C3_bounded_horizon 0 2 patientHigh esHigh (by rfl)

/-- C4 (amended) at the 39-week high-risk patient. -/
theorem C4_witness :
    esHigh.filter (fun e => e.call_type = "high_risk_monitoring") =
      (if patientHigh.risk_category = "high" then
        (List.range (horizonWeeks patientHigh.gestational_age_weeks)).map
          fun (w : Nat) =>
          { patient_id := 2
            call_type := "high_risk_monitoring"
            status := "scheduled"
            message_text := generate_simple_message "high_risk_monitoring"
              patientHigh.name (patientHigh.gestational_age_weeks + (w : Int))
              patientHigh.risk_factors patientHigh.risk_category
              (convert_medications_to_strings patientHigh.medications)
            scheduled_time :=
              addDays 0 (w * callFrequencyDays patientHigh.risk_category + 1) }
       else []) :=
  C4_high_risk_schedule 0 2 patientHigh esHigh (by rfl)

/-- C5 at the 39-week high-risk patient. -/
theorem C5_witness :
    (∀ e ∈ esHigh, 0 < e.scheduled_time) ∧
    (∀ (patients : List PatientRow) (startId : Int),
      selectDue patients (create_call_logs_batch startId esHigh) 0 = []) :=
  C5_strictly_future 0 2 patientHigh esHigh (by rfl)

/-- C6 at the 39-week high-risk patient. -/
theorem C6_witness :
    callFrequencyDays "high" = 3 ∧ callFrequencyDays "medium" = 5 ∧
    (∀ rc, rc ≠ "high" → rc ≠ "medium" → callFrequencyDays rc = 7) ∧
    esHigh.filter (fun e => e.call_type = "weekly_checkin") =
      (List.range (horizonWeeks patientHigh.gestational_age_weeks)).map
        fun (w : Nat) =>
        { patient_id := 2
          call_type := "weekly_checkin"
          status := "scheduled"
          message_text := generate_simple_message "weekly_checkin"
            patientHigh.name (patientHigh.gestational_age_weeks + (w : Int))
            patientHigh.risk_factors patientHigh.risk_category
            (convert_medications_to_strings patientHigh.medications)
          scheduled_time :=
            replaceHM (addDays 0 (1 + w * callFrequencyDays patientHigh.risk_category)) 9 0 } :=
  C6_weekly_cadence 0 2 patientHigh esHigh (by rfl)

/-- C8 (amended) with an insert that always fails. -/
theorem C8_witness :
    generate_and_persist 0 2 patientHigh (fun _ => .error "disk I/O error") =
      (.ok esHigh, ["Warning: Failed to create some call logs: disk I/O error"]) :=
  C8_storage_failure 0 2 patientHigh (fun _ => .error "disk I/O error") esHigh
    "disk I/O error" (by rfl) (by decide) (by rfl)

/-- C9 on a two-row table: delete of the scheduled row 5, soft-cancel of the
completed row 6 with its `completed_at` intact, 404 for the absent id 99. -/
theorem C9_witness :
    (∀ r ∈ (cancel_call [rowDue, rowDone] 5).1, r.id ≠ 5) ∧
    (cancel_call [rowDue, rowDone] 6).2 = .ok "Call cancelled successfully" ∧
    ({ rowDone with status := "cancelled" } ∈ (cancel_call [rowDue, rowDone] 6).1) ∧
    cancel_call [rowDue, rowDone] 99 =
      ([rowDue, rowDone], .error (404, "Call not found")) := by
  have h5 := C9_cancellation [rowDue, rowDone] 5
  have h6 := C9_cancellation [rowDue, rowDone] 6
  have h99 := C9_cancellation [rowDue, rowDone] 99
  refine ⟨(h5.1 rowDue (by decide) (by decide)).1,
    (h6.2.1 rowDone (by decide) (by decide)).1, ?_, h99.2.2 (by decide)⟩
  exact (h6.2.1 rowDone (by decide) (by decide)).2.1 rowDone (by decide) (by decide)

/-- C10 on a one-row table: inserting a fresh phone keeps phones distinct,
re-registering the existing phone changes nothing, and moving a different
patient onto the existing phone changes nothing. -/
theorem C10_witness :
    ((((create_patient tableOne "Bela" "+15550199" 30 "[]" "[]" "low").1).rows.map
      (fun r => r.phone)).Nodup) ∧
    (create_patient tableOne "Cara" "+15550100" 30 "[]" "[]" "low").1 = tableOne ∧
    (update_patient tableOne 2 { phone := some "+15550100" }).1 = tableOne := by
  have h := C10_phone_uniqueness tableOne (by decide) (by decide)
  exact ⟨h.1 "Bela" "+15550199" 30 "[]" "[]" "low",
    (h.2.1 "Cara" "+15550100" 30 "[]" "[]" "low" (by decide)).1,
    (h.2.2.2 2 { phone := some "+15550100" } "+15550100" rfl (by decide)).1⟩

end SabCare
